import Mathlib

/-
Verification of the JNI marshaling layer in
src/extensions/dav1d/src/main/jni/dav1d_jni.cc (an ExoPlayer dav1d bridge).

The embedding below is a shallow translation of that single C++ file:
  * C integers that are nonnegative in every execution reached by the claims
    (dimensions, strides, reference counts, array counts) are modelled as Nat;
    the output buffer's decoderPrivate field, which is compared against -1,
    is modelled as Int.
  * pointers to pixel memory are modelled as the byte contents behind them,
    i.e. as functions Nat -> Nat (byte offset to byte value, bytes taken
    mod 256 where the code truncates);
  * the heap-allocation failure paths of operator new(std::nothrow) and of
    JniFrameBuffer::MaybeReallocateGav1DataPlanes are not modelled: both are
    host out-of-memory conditions, and the raw data-plane storage they manage
    is not read by any claim.  Allocation is assumed to succeed.
-/

set_option autoImplicit false
set_option linter.unusedVariables false

/-- Status codes specific to the JNI wrapper code (enum JniStatusCode,
dav1d_jni.cc lines 81-92). -/
inductive JniStatusCode where
  | kJniStatusOk
  | kJniStatusOutOfMemory
  | kJniStatusBufferAlreadyReleased
  | kJniStatusInvalidNumOfPlanes
  | kJniStatusBitDepth12NotSupportedWithYuv
  | kJniStatusHighBitDepthNotSupportedWithSurfaceYuv
  | kJniStatusANativeWindowError
  | kJniStatusBufferResizeError
  | kJniStatusNeonNotSupported
  deriving DecidableEq, Repr

/-- The fields of DAV1D_API::Dav1dPicture read by this file: p.w, p.h, p.bpc,
stride[2] and data[3].  A data pointer is modelled as the byte contents
behind it (offset to byte value). -/
structure Dav1dPicture where
  w : Nat
  h : Nat
  bpc : Nat
  stride : Fin 2 → Nat
  data : Fin 3 → Nat → Nat

/-- class JniFrameBuffer (dav1d_jni.cc lines 121-230): stride_, plane_,
displayed_width_, displayed_height_, id_ and reference_count_.  The raw
data-plane buffers (raw_buffer_, raw_buffer_size_) are not modelled; see the
file header. -/
structure JniFrameBuffer where
  stride : Fin 3 → Nat
  plane : Fin 3 → Nat → Nat
  displayed_width : Fin 3 → Nat
  displayed_height : Fin 3 → Nat
  id : Nat
  reference_count : Nat

/-- JniFrameBuffer::JniFrameBuffer(int id) : id_(id), reference_count_(0).
The plane-description fields are uninitialized in C++ until SetFrameData;
they are given the value 0 here. -/
def newFrameBuffer (id : Nat) : JniFrameBuffer :=
  { stride := fun _ => 0
    plane := fun _ _ => 0
    displayed_width := fun _ => 0
    displayed_height := fun _ => 0
    id := id
    reference_count := 0 }

/-- JniFrameBuffer::AddReference (line 185). -/
def JniFrameBuffer.AddReference (b : JniFrameBuffer) : JniFrameBuffer :=
  { b with reference_count := b.reference_count + 1 }

/-- JniFrameBuffer::RemoveReference (line 187).  Every call site guards it
with InUse, so the Nat subtraction agrees with the C int decrement. -/
def JniFrameBuffer.RemoveReference (b : JniFrameBuffer) : JniFrameBuffer :=
  { b with reference_count := b.reference_count - 1 }

/-- JniFrameBuffer::InUse (line 189): reference_count_ != 0. -/
def JniFrameBuffer.InUse (b : JniFrameBuffer) : Bool :=
  b.reference_count != 0

/-- JniFrameBuffer::SetFrameData (lines 143-167): plane loop copying strides
(plane 2 reuses stride[1]), data pointers, and displayed dimensions (chroma
planes get w/2 and h/2). -/
def JniFrameBuffer.SetFrameData (buf : JniFrameBuffer) (p : Dav1dPicture) :
    JniFrameBuffer :=
  { buf with
    stride := fun i =>
      if h : i.val = 0 ∨ i.val = 1 then p.stride ⟨i.val, by omega⟩
      else p.stride 1
    plane := fun i => p.data i
    displayed_width := fun i => if i.val = 0 then p.w else p.w / 2
    displayed_height := fun i => if i.val = 0 then p.h else p.h / 2 }

/-- JniBufferManager::kMaxFrames (line 307). -/
def kMaxFrames : Nat := 32

/-- Replace the element at index i, leaving the list unchanged when i is out
of range.  Used to model in-place mutation of all_buffers_[i]. -/
def listModify {α : Type} (f : α → α) : Nat → List α → List α
  | _, [] => []
  | 0, b :: l => f b :: l
  | n + 1, b :: l => b :: listModify f n l

/-- class JniBufferManager (lines 234-316).  all_buffers_ is the array of
created buffers (index = creation order); free_buffers_ is the stack of
free-list entries, stored as indices into all_buffers_ with the head of the
list as the top of the stack (free_buffers_[free_buffer_count_ - 1]).
The counts all_buffer_count_ and free_buffer_count_ are the list lengths. -/
structure JniBufferManager where
  all_buffers : List JniFrameBuffer
  free_buffers : List Nat

/-- A JniBufferManager as default-constructed: both counts zero. -/
def emptyManager : JniBufferManager :=
  { all_buffers := [], free_buffers := [] }

/-- JniBufferManager::GetBuffer(size_t, size_t, JniFrameBuffer**)
(lines 249-280): pop the free-list top if non-empty, otherwise create a new
buffer with id all_buffer_count_ while below kMaxFrames, otherwise return
kJniStatusOutOfMemory.  On success the buffer gets AddReference and its index
is returned (the out-parameter *jni_buffer).  The two size arguments only
feed MaybeReallocateGav1DataPlanes, whose allocation is assumed to succeed
(see the file header). -/
def GetBuffer (m : JniBufferManager) (y_plane_min_size uv_plane_min_size : Nat) :
    JniStatusCode × JniBufferManager × Option Nat :=
  match m.free_buffers with
  | i :: rest =>
      (JniStatusCode.kJniStatusOk,
        { all_buffers := listModify JniFrameBuffer.AddReference i m.all_buffers
          free_buffers := rest },
        some i)
  | [] =>
      if m.all_buffers.length < kMaxFrames then
        (JniStatusCode.kJniStatusOk,
          { all_buffers :=
              m.all_buffers ++ [(newFrameBuffer m.all_buffers.length).AddReference]
            free_buffers := [] },
          some m.all_buffers.length)
      else
        (JniStatusCode.kJniStatusOutOfMemory, m, none)

/-- JniBufferManager::GetBuffer(int) (line 282): return all_buffers_[id].
Out-of-range access is undefined behaviour in C++ and is modelled as none. -/
def GetBufferById (m : JniBufferManager) (id : Nat) : Option JniFrameBuffer :=
  m.all_buffers[id]?

/-- JniBufferManager::AddBufferReference (lines 284-288):
all_buffers_[id]->AddReference().  Out-of-range ids are undefined behaviour
in C++; modelled as a no-op. -/
def AddBufferReference (m : JniBufferManager) (id : Nat) : JniBufferManager :=
  { m with all_buffers := listModify JniFrameBuffer.AddReference id m.all_buffers }

/-- JniBufferManager::ReleaseBuffer (lines 290-304): return
kJniStatusBufferAlreadyReleased when the buffer is not InUse; otherwise
RemoveReference and push the buffer onto the free list when the count
reached zero.  Out-of-range ids are undefined behaviour in C++; modelled
as a no-op returning kJniStatusOk. -/
def ReleaseBuffer (m : JniBufferManager) (id : Nat) :
    JniStatusCode × JniBufferManager :=
  match m.all_buffers[id]? with
  | none => (JniStatusCode.kJniStatusOk, m)
  | some buffer =>
      if buffer.InUse then
        let all := listModify JniFrameBuffer.RemoveReference id m.all_buffers
        if buffer.RemoveReference.InUse then
          (JniStatusCode.kJniStatusOk, { m with all_buffers := all })
        else
          (JniStatusCode.kJniStatusOk,
            { all_buffers := all, free_buffers := id :: m.free_buffers })
      else
        (JniStatusCode.kJniStatusBufferAlreadyReleased, m)

/-- The three JniBufferManager operations that change the pool state,
as invoked through the decoder entry points. -/
inductive PoolOp where
  | get : PoolOp
  | addRef : Nat → PoolOp
  | release : Nat → PoolOp

/-- One pool operation applied to a manager state (the buffer sizes passed to
GetBuffer do not affect the pool state in this model). -/
def poolStep (m : JniBufferManager) : PoolOp → JniBufferManager
  | PoolOp.get => (GetBuffer m 0 0).2.1
  | PoolOp.addRef i => AddBufferReference m i
  | PoolOp.release i => (ReleaseBuffer m i).2

/-- Run a sequence of pool operations from the default-constructed manager. -/
def runOps (ops : List PoolOp) : JniBufferManager :=
  ops.foldl poolStep emptyManager

/-- The reference count of the buffer at index i, if created. -/
def rcAt (m : JniBufferManager) (i : Nat) : Option Nat :=
  (m.all_buffers[i]?).map (fun b => b.reference_count)

/-- A call sequence is valid when AddBufferReference is only applied to a
buffer whose reference count is nonzero at the moment of the call. -/
def validOps : JniBufferManager → List PoolOp → Bool
  | _, [] => true
  | m, op :: ops =>
      (match op with
       | PoolOp.addRef i => rcAt m i != some 0
       | _ => true) && validOps (poolStep m op) ops

/-- The pool-state invariant of claim C8: the free count never exceeds the
created count, the created count never exceeds kMaxFrames, every free-list
buffer has reference count zero, and GetBuffer(id) returns the buffer whose
BufferPrivateData (its id_ field) is id. -/
def poolInvariant (m : JniBufferManager) : Prop :=
  m.free_buffers.length ≤ m.all_buffers.length ∧
  m.all_buffers.length ≤ kMaxFrames ∧
  (∀ i ∈ m.free_buffers, rcAt m i = some 0) ∧
  (∀ i b, GetBufferById m i = some b → b.id = i)

/-- Strengthened induction invariant: additionally the free list has no
duplicates and all its entries are indices of created buffers. -/
def strongInv (m : JniBufferManager) : Prop :=
  m.all_buffers.length ≤ kMaxFrames ∧
  m.free_buffers.Nodup ∧
  (∀ i ∈ m.free_buffers, i < m.all_buffers.length ∧ rcAt m i = some 0) ∧
  (∀ (i : Nat) (b : JniFrameBuffer), m.all_buffers[i]? = some b → b.id = i)

/-- sizeof decoder_buffer->data[plane_index]: data is void *[3], so this is
the size of a void pointer, 8 bytes on 64-bit Android. -/
def sizeofVoidPtr : Nat := 8

/-- CopyFrameToDataBuffer (lines 392-403): for each plane, memcpy
length = sizeof decoder_buffer->data[plane_index] bytes from the plane data
into the output byte buffer, advancing the destination by length.  The
result is the list of bytes written, in destination order. -/
def CopyFrameToDataBuffer (pic : Dav1dPicture) : List Nat :=
  ((List.range sizeofVoidPtr).map (pic.data 0)) ++
  ((List.range sizeofVoidPtr).map (pic.data 1)) ++
  ((List.range sizeofVoidPtr).map (pic.data 2))

/-- What the specification describes for an 8-bit kOutputModeYuv frame: the
full pixel contents of each plane pushed into the byte buffer, plane after
plane.  For an 8-bit 4:2:0 picture the luma plane holds stride[0] * h bytes
and each chroma plane stride[1] * ((h + 1) / 2) bytes. -/
def specCopyFrameToDataBuffer (pic : Dav1dPicture) : List Nat :=
  ((List.range (pic.stride 0 * pic.h)).map (pic.data 0)) ++
  ((List.range (pic.stride 1 * ((pic.h + 1) / 2))).map (pic.data 1)) ++
  ((List.range (pic.stride 1 * ((pic.h + 1) / 2))).map (pic.data 2))

/-- A concrete decoded 8-bit picture, 16x16 with strides 16 and 8, whose
plane bytes are the plane index (so plane 0 holds only 0s, plane 1 only 1s,
plane 2 only 2s). -/
def failingPic : Dav1dPicture :=
  { w := 16
    h := 16
    bpc := 8
    stride := fun i => if i.val = 0 then 16 else 8
    data := fun i _ => i.val }

/-- One pixel of Convert10BitFrameTo8BitDataBuffer (lines 421-423): with
carry c entering the pixel and 16-bit sample s, the code runs
sample += source_16[j]; data[j] = sample >> 2; sample &= 3.  The byte stored
into the jbyte destination is the low 8 bits of sample >> 2; the new carry
is sample & 3.  Returns (stored byte, new carry). -/
def convertPixel (c s : Nat) : Nat × Nat :=
  (((c + s) / 4) % 256, (c + s) % 4)

/-- One row of Convert10BitFrameTo8BitDataBuffer: pixels processed left to
right, threading the carry.  Returns the bytes written and the exit carry. -/
def convertRow : Nat → List Nat → List Nat × Nat
  | c, [] => ([], c)
  | c, s :: ss =>
      let p := convertPixel c s
      let rest := convertRow p.2 ss
      (p.1 :: rest.1, rest.2)

/-- All rows of one plane of Convert10BitFrameTo8BitDataBuffer: the carry
variable (sample) is not reset between rows, only at the start of a plane. -/
def convertPlaneRows : Nat → List (List Nat) → List (List Nat) × Nat
  | c, [] => ([], c)
  | c, row :: rows =>
      let p := convertRow c row
      let rest := convertPlaneRows p.2 rows
      (p.1 :: rest.1, rest.2)

/-- Convert10BitFrameTo8BitDataBuffer (lines 405-429): each of the three
planes (given as its rows of 16-bit samples) is converted with the carry
starting at 0. -/
def Convert10BitFrameTo8BitDataBuffer (planes : List (List (List Nat))) :
    List (List (List Nat)) :=
  planes.map (fun rows => (convertPlaneRows 0 rows).1)

/-- AlignTo16 (line 370): (value + 15) & ~15.  For the nonnegative window
strides it is applied to, clearing the low four bits of value + 15 equals
rounding value up to the next multiple of 16. -/
def AlignTo16 (value : Nat) : Nat :=
  (value + 15) / 16 * 16

/-- One memcpy row of CopyPlane: bytes [dstOff, dstOff + width) of the
destination memory receive source bytes starting at srcOff. -/
def writeRow (source : Nat → Nat) (srcOff dstOff width : Nat)
    (mem : Nat → Nat) : Nat → Nat :=
  fun a =>
    if dstOff ≤ a ∧ a < dstOff + width then source (srcOff + (a - dstOff))
    else mem a

/-- CopyPlane (lines 372-390): while (height--) memcpy a row of width bytes,
then advance the source by source_stride and the destination by
destination_stride.  The destination pointer is modelled as an offset dstOff
into the window memory mem. -/
def CopyPlane (source : Nat → Nat) (source_stride destination_stride width : Nat) :
    Nat → Nat → Nat → (Nat → Nat) → Nat → Nat
  | _, _, 0, mem => mem
  | srcOff, dstOff, height + 1, mem =>
      CopyPlane source source_stride destination_stride width
        (srcOff + source_stride) (dstOff + destination_stride) height
        (writeRow source srcOff dstOff width mem)

/-- The pixel-copy section of gav1RenderFrame (lines 639-678): the Y plane is
copied to offset 0 of the locked window buffer with the window's stride; the
V plane to offset y_plane_size = stride * height with chroma stride
AlignTo16(stride / 2) and height min((height + 1) / 2, DisplayedHeight(V));
the U plane immediately after the V plane.  wstride and wheight are the
locked ANativeWindow_Buffer's stride and height; mem its byte contents. -/
def gav1RenderFrame (jb : JniFrameBuffer) (wstride wheight : Nat)
    (mem : Nat → Nat) : Nat → Nat :=
  let memY := CopyPlane (jb.plane 0) (jb.stride 0) wstride
    (jb.displayed_width 0) 0 0 (jb.displayed_height 0) mem
  let y_plane_size := wstride * wheight
  let uv_height := (wheight + 1) / 2
  let uv_stride := AlignTo16 (wstride / 2)
  let v_plane_height := min uv_height (jb.displayed_height 2)
  let memV := CopyPlane (jb.plane 2) (jb.stride 2) uv_stride
    (jb.displayed_width 2) 0 y_plane_size v_plane_height memY
  let v_plane_size := v_plane_height * uv_stride
  CopyPlane (jb.plane 1) (jb.stride 1) uv_stride (jb.displayed_width 1) 0
    (y_plane_size + v_plane_size) (min uv_height (jb.displayed_height 1)) memV

/-- The observable outcome of gav1ReleaseFrame: the output buffer's
decoderPrivate field after the call, the pool state after the call, and the
status code written to context->jni_status_code (none when the function
returned before touching the pool). -/
structure ReleaseFrameOutcome where
  decoderPrivate : Int
  manager : JniBufferManager
  statusWritten : Option JniStatusCode

/-- gav1ReleaseFrame (lines 689-703): read buffer_id from the output
buffer's decoderPrivate field, write -1 into the field, return if
buffer_id < 0, otherwise call ReleaseBuffer(buffer_id) and store its status
in context->jni_status_code. -/
def gav1ReleaseFrame (decoderPrivate : Int) (m : JniBufferManager) :
    ReleaseFrameOutcome :=
  if decoderPrivate < 0 then
    { decoderPrivate := -1, manager := m, statusWritten := none }
  else
    { decoderPrivate := -1
      manager := (ReleaseBuffer m decoderPrivate.toNat).2
      statusWritten := some (ReleaseBuffer m decoderPrivate.toNat).1 }

/-- Events of a JniBufferManager member function relevant to mutual
exclusion: acquiring mutex_ (a std::lock_guard constructor), releasing it
(the guard's destructor at scope exit), and an access to all_buffers_,
free_buffers_ or their counts. -/
inductive LockEvent where
  | lock
  | unlock
  | access
  deriving DecidableEq

/-- GetBuffer(size_t, size_t, JniFrameBuffer**), lines 249-280: lock_guard
at line 252, then accesses to free_buffer_count_ / free_buffers_ (254, 256)
and all_buffer_count_ / all_buffers_ (258, 263), unlocked at return. -/
def getBufferBySizeEvents : List LockEvent :=
  [LockEvent.lock, LockEvent.access, LockEvent.access, LockEvent.access,
   LockEvent.access, LockEvent.unlock]

/-- GetBuffer(int), line 282: reads all_buffers_[id] with no lock_guard. -/
def getBufferByIdEvents : List LockEvent :=
  [LockEvent.access]

/-- AddBufferReference, lines 284-288: lock_guard at 286, access to
all_buffers_[id] at 287, unlocked at return. -/
def addBufferReferenceEvents : List LockEvent :=
  [LockEvent.lock, LockEvent.access, LockEvent.unlock]

/-- ReleaseBuffer, lines 290-304: lock_guard at 292, accesses to
all_buffers_[id] (293) and free_buffers_ / free_buffer_count_ (301),
unlocked at return. -/
def releaseBufferEvents : List LockEvent :=
  [LockEvent.lock, LockEvent.access, LockEvent.access, LockEvent.unlock]

/-- A trace is mutex-guarded when every access happens while the mutex is
held. -/
def guardedFrom : Bool → List LockEvent → Bool
  | _, [] => true
  | _, LockEvent.lock :: es => guardedFrom true es
  | _, LockEvent.unlock :: es => guardedFrom false es
  | held, LockEvent.access :: es => held && guardedFrom held es

/-- A member function holds the mutex around every access when its trace,
started with the mutex not held, is guarded. -/
def mutexGuarded (es : List LockEvent) : Bool :=
  guardedFrom false es

/-- A manager holding kMaxFrames created buffers, none free: the state in
which the hard cap fires. -/
def fullManager : JniBufferManager :=
  { all_buffers := (List.range kMaxFrames).map newFrameBuffer
    free_buffers := [] }

/-- A single created buffer with reference count 2. -/
def bufferRc2 : JniFrameBuffer :=
  { newFrameBuffer 0 with reference_count := 2 }

/-- A manager holding only bufferRc2. -/
def managerRc2 : JniBufferManager :=
  { all_buffers := [bufferRc2], free_buffers := [] }

/-- A single created buffer with reference count 1. -/
def bufferRc1 : JniFrameBuffer :=
  { newFrameBuffer 0 with reference_count := 1 }

/-- A manager holding only bufferRc1. -/
def managerRc1 : JniBufferManager :=
  { all_buffers := [bufferRc1], free_buffers := [] }

/-- A concrete frame buffer for exercising the render-frame layout: a
32x8 luma plane and 8x4 chroma planes, plane bytes 3 * offset + plane. -/
def renderBuffer : JniFrameBuffer :=
  { stride := fun i => if i.val = 0 then 32 else 16
    plane := fun i a => 3 * a + i.val
    displayed_width := fun i => if i.val = 0 then 32 else 8
    displayed_height := fun i => if i.val = 0 then 8 else 4
    id := 0
    reference_count := 1 }

/-- Claim C5: SetFrameData sets the luma displayed size to w and h, both
chroma displayed sizes to w/2 and h/2 (integer division), strides of planes
0 and 1 to stride[0] and stride[1], the stride of plane 2 to stride[1], and
each plane pointer to the picture's data pointer for that plane. -/
theorem setFrameData_fields (buf : JniFrameBuffer) (p : Dav1dPicture) :
    (buf.SetFrameData p).displayed_width 0 = p.w ∧
    (buf.SetFrameData p).displayed_height 0 = p.h ∧
    (∀ i : Fin 3, i.val ≠ 0 →
      (buf.SetFrameData p).displayed_width i = p.w / 2 ∧
      (buf.SetFrameData p).displayed_height i = p.h / 2) ∧
    (buf.SetFrameData p).stride 0 = p.stride 0 ∧
    (buf.SetFrameData p).stride 1 = p.stride 1 ∧
    (buf.SetFrameData p).stride 2 = p.stride 1 ∧
    (∀ i : Fin 3, (buf.SetFrameData p).plane i = p.data i) := by
  refine ⟨rfl, rfl, ?_, ?_, ?_, ?_, fun i => rfl⟩
  · intro i hi
    fin_cases i
    · exact absurd rfl hi
    · exact ⟨rfl, rfl⟩
    · exact ⟨rfl, rfl⟩
  · simp [JniFrameBuffer.SetFrameData]
  · simp [JniFrameBuffer.SetFrameData]
  · simp [JniFrameBuffer.SetFrameData]

theorem listModify_length {α : Type} (f : α → α) (i : Nat) (l : List α) :
    (listModify f i l).length = l.length := by
  induction l generalizing i with
  | nil => simp [listModify]
  | cons b l ih =>
    cases i with
    | zero => simp [listModify]
    | succ n => simpa [listModify] using ih n

theorem getElem?_listModify_self {α : Type} (f : α → α) (i : Nat) (l : List α) :
    (listModify f i l)[i]? = (l[i]?).map f := by
  induction l generalizing i with
  | nil => simp [listModify]
  | cons b l ih =>
    cases i with
    | zero => simp [listModify]
    | succ n => simpa [listModify] using ih n

theorem getElem?_listModify_ne {α : Type} (f : α → α) {i j : Nat} (l : List α)
    (h : j ≠ i) : (listModify f i l)[j]? = l[j]? := by
  induction l generalizing i j with
  | nil => simp [listModify]
  | cons b l ih =>
    cases i with
    | zero =>
      cases j with
      | zero => exact absurd rfl h
      | succ k => simp [listModify]
    | succ n =>
      cases j with
      | zero => simp [listModify]
      | succ k => simpa [listModify] using ih (fun hk => h (by omega))

theorem getElem?_append_singleton {α : Type} (l : List α) (a : α) (n : Nat) :
    (l ++ [a])[n]? =
      if n < l.length then l[n]? else if n = l.length then some a else none := by
  induction l generalizing n with
  | nil =>
    cases n with
    | zero => rfl
    | succ k => simp
  | cons b l ih =>
    cases n with
    | zero => simp
    | succ k =>
      simp only [List.cons_append, List.getElem?_cons_succ, ih k,
        List.length_cons]
      by_cases hk : k < l.length
      · rw [if_pos hk, if_pos (by omega)]
      · rw [if_neg hk, if_neg (by omega : ¬k + 1 < l.length + 1)]
        by_cases he : k = l.length
        · rw [if_pos he, if_pos (by omega)]
        · rw [if_neg he, if_neg (by omega : ¬k + 1 = l.length + 1)]

/-- Claim C2: the pool is fixed-capacity with a hard cap of kMaxFrames = 32:
GetBuffer returns kJniStatusOutOfMemory when the free list is empty and 32
buffers have already been created, and no operation makes the number of
created buffers exceed 32. -/
theorem getBuffer_capacity (m : JniBufferManager) (y uv : Nat)
    (hm : m.all_buffers.length ≤ 32) :
    (m.free_buffers = [] → m.all_buffers.length = 32 →
      (GetBuffer m y uv).1 = JniStatusCode.kJniStatusOutOfMemory) ∧
    (GetBuffer m y uv).2.1.all_buffers.length ≤ 32 ∧
    (∀ i, (AddBufferReference m i).all_buffers.length ≤ 32) ∧
    (∀ i, (ReleaseBuffer m i).2.all_buffers.length ≤ 32) := by
  refine ⟨?_, ?_, ?_, ?_⟩
  · intro hfree hlen
    simp only [GetBuffer, hfree, hlen, kMaxFrames]
    rfl
  · unfold GetBuffer
    cases hfree : m.free_buffers with
    | cons i rest => simpa [listModify_length] using hm
    | nil =>
      by_cases hlt : m.all_buffers.length < kMaxFrames
      · simp only [hlt, if_true, List.length_append, List.length_cons,
          List.length_nil]
        simp only [kMaxFrames] at hlt
        omega
      · simpa [hlt] using hm
  · intro i
    simpa [AddBufferReference, listModify_length] using hm
  · intro i
    unfold ReleaseBuffer
    cases hbuf : m.all_buffers[i]? with
    | none => simpa using hm
    | some b =>
      by_cases hin : b.InUse
      · by_cases hin' : b.RemoveReference.InUse
        · simpa [hin, hin', listModify_length] using hm
        · simpa [hin, hin', listModify_length] using hm
      · simpa [hin] using hm

theorem getBuffer_capacity_witness :
    fullManager.all_buffers.length ≤ 32 ∧
    (GetBuffer fullManager 64 32).1 = JniStatusCode.kJniStatusOutOfMemory ∧
    (GetBuffer fullManager 64 32).2.1.all_buffers.length ≤ 32 := by
  have h := getBuffer_capacity fullManager 64 32
    (by simp [fullManager, kMaxFrames])
  exact ⟨by simp [fullManager, kMaxFrames],
    h.1 rfl (by simp [fullManager, kMaxFrames]), h.2.1⟩

/-- Claim C3: ReleaseBuffer on an already-created buffer returns
kJniStatusBufferAlreadyReleased and leaves the pool unchanged when the
buffer's reference count is zero; otherwise it decrements the count, returns
kJniStatusOk, leaves the other buffers unchanged, and pushes the buffer onto
the free list exactly when the count reached zero. -/
theorem releaseBuffer_refcount (m : JniBufferManager) (i : Nat)
    (b : JniFrameBuffer) (hb : m.all_buffers[i]? = some b) :
    (b.reference_count = 0 →
      ReleaseBuffer m i = (JniStatusCode.kJniStatusBufferAlreadyReleased, m)) ∧
    (b.reference_count ≠ 0 →
      (ReleaseBuffer m i).1 = JniStatusCode.kJniStatusOk ∧
      rcAt (ReleaseBuffer m i).2 i = some (b.reference_count - 1) ∧
      (∀ j, j ≠ i → (ReleaseBuffer m i).2.all_buffers[j]? = m.all_buffers[j]?) ∧
      (ReleaseBuffer m i).2.free_buffers =
        (if b.reference_count = 1 then i :: m.free_buffers
         else m.free_buffers)) := by
  constructor
  · intro h0
    have hin : b.InUse = false := by
      simp [JniFrameBuffer.InUse, h0]
    simp [ReleaseBuffer, hb, hin]
  · intro hne
    have hin : b.InUse = true := by
      simp [JniFrameBuffer.InUse, hne]
    by_cases h1 : b.reference_count = 1
    · have hin' : b.RemoveReference.InUse = false := by
        simp [JniFrameBuffer.InUse, JniFrameBuffer.RemoveReference, h1]
      have hrel : (ReleaseBuffer m i).2 =
          { all_buffers := listModify JniFrameBuffer.RemoveReference i m.all_buffers
            free_buffers := i :: m.free_buffers } := by
        simp [ReleaseBuffer, hb, hin, hin']
      refine ⟨by simp [ReleaseBuffer, hb, hin, hin'], ?_, ?_, ?_⟩
      · rw [hrel]
        simp [rcAt, getElem?_listModify_self, hb, JniFrameBuffer.RemoveReference]
      · intro j hj
        rw [hrel]
        simpa using getElem?_listModify_ne _ _ hj
      · rw [hrel, if_pos h1]
    · have hin' : b.RemoveReference.InUse = true := by
        simp only [JniFrameBuffer.InUse, JniFrameBuffer.RemoveReference,
          bne_iff_ne, ne_eq]
        omega
      have hrel : (ReleaseBuffer m i).2 =
          { all_buffers := listModify JniFrameBuffer.RemoveReference i m.all_buffers
            free_buffers := m.free_buffers } := by
        simp [ReleaseBuffer, hb, hin, hin']
      refine ⟨by simp [ReleaseBuffer, hb, hin, hin'], ?_, ?_, ?_⟩
      · rw [hrel]
        simp [rcAt, getElem?_listModify_self, hb, JniFrameBuffer.RemoveReference]
      · intro j hj
        rw [hrel]
        simpa using getElem?_listModify_ne _ _ hj
      · rw [hrel, if_neg h1]

theorem releaseBuffer_refcount_witness :
    managerRc2.all_buffers[0]? = some bufferRc2 ∧
    (ReleaseBuffer managerRc2 0).1 = JniStatusCode.kJniStatusOk ∧
    rcAt (ReleaseBuffer managerRc2 0).2 0 = some 1 ∧
    (ReleaseBuffer managerRc2 0).2.free_buffers = [] := by
  have h := (releaseBuffer_refcount managerRc2 0 bufferRc2 rfl).2
    (by simp [bufferRc2, newFrameBuffer])
  refine ⟨rfl, h.1, ?_, ?_⟩
  · simpa [bufferRc2, newFrameBuffer] using h.2.1
  · have hfree := h.2.2.2
    rw [hfree, if_neg (by simp [bufferRc2, newFrameBuffer])]
    rfl

/-- Claim C4: after ReleaseBuffer brings a buffer's reference count to zero,
the released index is pushed on the free list, and the next successful
GetBuffer pops exactly that buffer (LIFO), sets its reference count back to
1, and creates no new buffer. -/
theorem getBuffer_reuse_lifo (m : JniBufferManager) (i : Nat)
    (b : JniFrameBuffer) (y uv : Nat) (hb : m.all_buffers[i]? = some b)
    (h1 : b.reference_count = 1) :
    (ReleaseBuffer m i).2.free_buffers = i :: m.free_buffers ∧
    (GetBuffer (ReleaseBuffer m i).2 y uv).1 = JniStatusCode.kJniStatusOk ∧
    (GetBuffer (ReleaseBuffer m i).2 y uv).2.2 = some i ∧
    (GetBuffer (ReleaseBuffer m i).2 y uv).2.1.all_buffers.length =
      m.all_buffers.length ∧
    rcAt (GetBuffer (ReleaseBuffer m i).2 y uv).2.1 i = some 1 := by
  have hin : b.InUse = true := by
    simp [JniFrameBuffer.InUse, h1]
  have hin' : b.RemoveReference.InUse = false := by
    simp [JniFrameBuffer.InUse, JniFrameBuffer.RemoveReference, h1]
  have hrel : (ReleaseBuffer m i).2 =
      { all_buffers := listModify JniFrameBuffer.RemoveReference i m.all_buffers
        free_buffers := i :: m.free_buffers } := by
    simp [ReleaseBuffer, hb, hin, hin']
  refine ⟨by rw [hrel], ?_, ?_, ?_, ?_⟩
  · rw [hrel]; rfl
  · rw [hrel]; rfl
  · rw [hrel]
    simp [GetBuffer, listModify_length]
  · rw [hrel]
    simp [GetBuffer, rcAt, getElem?_listModify_self, hb,
      JniFrameBuffer.AddReference, JniFrameBuffer.RemoveReference, h1]

theorem getBuffer_reuse_lifo_witness :
    (ReleaseBuffer managerRc1 0).2.free_buffers = [0] ∧
    (GetBuffer (ReleaseBuffer managerRc1 0).2 5 5).2.2 = some 0 ∧
    (GetBuffer (ReleaseBuffer managerRc1 0).2 5 5).2.1.all_buffers.length = 1 ∧
    rcAt (GetBuffer (ReleaseBuffer managerRc1 0).2 5 5).2.1 0 = some 1 := by
  have h := getBuffer_reuse_lifo managerRc1 0 bufferRc1 5 5 rfl
    (by simp [bufferRc1, newFrameBuffer])
  exact ⟨h.1, h.2.2.1, h.2.2.2.1, h.2.2.2.2⟩

theorem listModify_preserves_id (l : List JniFrameBuffer) (i : Nat)
    (f : JniFrameBuffer → JniFrameBuffer) (hf : ∀ b, (f b).id = b.id)
    (hid : ∀ (i' : Nat) (b : JniFrameBuffer), l[i']? = some b → b.id = i') :
    ∀ (i' : Nat) (b' : JniFrameBuffer),
      (listModify f i l)[i']? = some b' → b'.id = i' := by
  intro i' b' hb'
  by_cases hii : i' = i
  · subst hii
    rw [getElem?_listModify_self] at hb'
    cases hbm : l[i']? with
    | none => rw [hbm] at hb'; simp at hb'
    | some b0 =>
      rw [hbm] at hb'
      simp only [Option.map_some', Option.some.injEq] at hb'
      rw [← hb', hf b0]
      exact hid i' b0 hbm
  · rw [getElem?_listModify_ne _ _ hii] at hb'
    exact hid _ _ hb'

theorem strongInv_get (m : JniBufferManager) (y uv : Nat) (h : strongInv m) :
    strongInv (GetBuffer m y uv).2.1 := by
  obtain ⟨hlen, hnodup, hfree, hid⟩ := h
  cases hf : m.free_buffers with
  | cons i rest =>
    have hg : (GetBuffer m y uv).2.1 =
        { all_buffers := listModify JniFrameBuffer.AddReference i m.all_buffers
          free_buffers := rest } := by
      simp [GetBuffer, hf]
    rw [hg]
    rw [hf] at hnodup hfree
    refine ⟨by simpa [listModify_length] using hlen, hnodup.of_cons, ?_,
      listModify_preserves_id _ _ _ (fun b => rfl) hid⟩
    intro j hj
    have hji : j ≠ i := by
      intro e
      subst e
      exact (List.nodup_cons.mp hnodup).1 hj
    obtain ⟨hjl, hjrc⟩ := hfree j (List.mem_cons_of_mem _ hj)
    refine ⟨by simpa [listModify_length] using hjl, ?_⟩
    unfold rcAt at hjrc ⊢
    simpa [getElem?_listModify_ne _ _ hji] using hjrc
  | nil =>
    by_cases hlt : m.all_buffers.length < kMaxFrames
    · have hg : (GetBuffer m y uv).2.1 =
          { all_buffers := m.all_buffers ++
              [(newFrameBuffer m.all_buffers.length).AddReference]
            free_buffers := [] } := by
        simp [GetBuffer, hf, hlt]
      rw [hg]
      refine ⟨?_, List.nodup_nil, ?_, ?_⟩
      · simp only [List.length_append, List.length_cons, List.length_nil]
        simp only [kMaxFrames] at hlt ⊢
        omega
      · intro j hj
        simp at hj
      · intro i' b' hb'
        rw [getElem?_append_singleton] at hb'
        by_cases h1 : i' < m.all_buffers.length
        · rw [if_pos h1] at hb'
          exact hid _ _ hb'
        · rw [if_neg h1] at hb'
          by_cases h2 : i' = m.all_buffers.length
          · rw [if_pos h2] at hb'
            have hb'' : b' = (newFrameBuffer m.all_buffers.length).AddReference :=
              (Option.some.inj hb').symm
            rw [hb'', h2]
            rfl
          · rw [if_neg h2] at hb'
            simp at hb'
    · have hg : (GetBuffer m y uv).2.1 = m := by
        simp [GetBuffer, hf, hlt]
      rw [hg]
      exact ⟨hlen, hnodup, hfree, hid⟩

theorem strongInv_addRef (m : JniBufferManager) (i : Nat) (h : strongInv m)
    (hrc : rcAt m i ≠ some 0) : strongInv (AddBufferReference m i) := by
  obtain ⟨hlen, hnodup, hfree, hid⟩ := h
  refine ⟨by simpa [AddBufferReference, listModify_length] using hlen, hnodup,
    ?_, listModify_preserves_id _ _ _ (fun b => rfl) hid⟩
  intro j hj
  obtain ⟨hjl, hjrc⟩ := hfree j hj
  have hji : j ≠ i := by
    intro e
    subst e
    exact hrc hjrc
  refine ⟨by simpa [AddBufferReference, listModify_length] using hjl, ?_⟩
  unfold rcAt at hjrc ⊢
  simp only [AddBufferReference]
  rw [getElem?_listModify_ne _ _ hji]
  exact hjrc

theorem strongInv_release (m : JniBufferManager) (i : Nat) (h : strongInv m) :
    strongInv (ReleaseBuffer m i).2 := by
  obtain ⟨hlen, hnodup, hfree, hid⟩ := h
  cases hb : m.all_buffers[i]? with
  | none =>
    have hg : (ReleaseBuffer m i).2 = m := by simp [ReleaseBuffer, hb]
    rw [hg]
    exact ⟨hlen, hnodup, hfree, hid⟩
  | some b =>
    by_cases hin : b.InUse
    · have hrc0 : b.reference_count ≠ 0 := by
        simpa [JniFrameBuffer.InUse] using hin
      by_cases hin' : b.RemoveReference.InUse
      · have hg : (ReleaseBuffer m i).2 =
            { all_buffers := listModify JniFrameBuffer.RemoveReference i m.all_buffers
              free_buffers := m.free_buffers } := by
          simp [ReleaseBuffer, hb, hin, hin']
        rw [hg]
        refine ⟨by simpa [listModify_length] using hlen, hnodup, ?_,
          listModify_preserves_id _ _ _ (fun b => rfl) hid⟩
        intro j hj
        obtain ⟨hjl, hjrc⟩ := hfree j hj
        have hji : j ≠ i := by
          intro e
          subst e
          unfold rcAt at hjrc
          rw [hb] at hjrc
          simp at hjrc
          exact hrc0 hjrc
        refine ⟨by simpa [listModify_length] using hjl, ?_⟩
        unfold rcAt at hjrc ⊢
        simpa [getElem?_listModify_ne _ _ hji] using hjrc
      · have hrc1 : b.reference_count = 1 := by
          simp [JniFrameBuffer.InUse, JniFrameBuffer.RemoveReference] at hin'
          omega
        have hg : (ReleaseBuffer m i).2 =
            { all_buffers := listModify JniFrameBuffer.RemoveReference i m.all_buffers
              free_buffers := i :: m.free_buffers } := by
          simp [ReleaseBuffer, hb, hin, hin']
        rw [hg]
        have hinotfree : i ∉ m.free_buffers := by
          intro hmem
          have hz := (hfree i hmem).2
          unfold rcAt at hz
          rw [hb] at hz
          simp at hz
          exact hrc0 hz
        have hilen : i < m.all_buffers.length := by
          by_contra hcon
          push_neg at hcon
          rw [List.getElem?_eq_none hcon] at hb
          cases hb
        refine ⟨by simpa [listModify_length] using hlen,
          List.nodup_cons.mpr ⟨hinotfree, hnodup⟩, ?_,
          listModify_preserves_id _ _ _ (fun b => rfl) hid⟩
        intro j hj
        rcases List.mem_cons.mp hj with rfl | hj'
        · refine ⟨by simpa [listModify_length] using hilen, ?_⟩
          unfold rcAt
          rw [getElem?_listModify_self, hb]
          simp [JniFrameBuffer.RemoveReference, hrc1]
        · obtain ⟨hjl, hjrc⟩ := hfree j hj'
          have hji : j ≠ i := by
            intro e
            subst e
            unfold rcAt at hjrc
            rw [hb] at hjrc
            simp at hjrc
            exact hrc0 hjrc
          refine ⟨by simpa [listModify_length] using hjl, ?_⟩
          unfold rcAt at hjrc ⊢
          simpa [getElem?_listModify_ne _ _ hji] using hjrc
    · have hg : (ReleaseBuffer m i).2 = m := by
        simp [ReleaseBuffer, hb, hin]
      rw [hg]
      exact ⟨hlen, hnodup, hfree, hid⟩

theorem validOps_strongInv (ops : List PoolOp) :
    ∀ m : JniBufferManager, strongInv m → validOps m ops = true →
      strongInv (ops.foldl poolStep m) := by
  induction ops with
  | nil => exact fun m h _ => h
  | cons op ops ih =>
    intro m h hv
    cases op with
    | get =>
      simp only [validOps, Bool.and_eq_true] at hv
      exact ih _ (strongInv_get m 0 0 h) hv.2
    | addRef i =>
      simp only [validOps, Bool.and_eq_true] at hv
      refine ih _ (strongInv_addRef m i h ?_) hv.2
      simpa using bne_iff_ne.mp hv.1
    | release i =>
      simp only [validOps, Bool.and_eq_true] at hv
      exact ih _ (strongInv_release m i h) hv.2

theorem strongInv_implies_poolInvariant (m : JniBufferManager)
    (h : strongInv m) : poolInvariant m := by
  obtain ⟨hlen, hnodup, hfree, hid⟩ := h
  refine ⟨?_, hlen, fun i hi => (hfree i hi).2, fun i b hb => hid i b hb⟩
  have hsub : m.free_buffers.toFinset ⊆ Finset.range m.all_buffers.length := by
    intro x hx
    rw [List.mem_toFinset] at hx
    exact Finset.mem_range.mpr (hfree x hx).1
  calc m.free_buffers.length
      = m.free_buffers.toFinset.card := (List.toFinset_card_of_nodup hnodup).symm
    _ ≤ (Finset.range m.all_buffers.length).card := Finset.card_le_card hsub
    _ = m.all_buffers.length := Finset.card_range _

/-- Counterexample to claim C8 as stated: from the empty pool, GetBuffer,
then ReleaseBuffer(0), then AddBufferReference(0) leaves buffer 0 on the
free list with reference count 1, violating the invariant that every
free-list buffer has reference count zero. -/
theorem pool_invariant_counterexample :
    ¬ poolInvariant (runOps [PoolOp.get, PoolOp.release 0, PoolOp.addRef 0]) := by
  intro h
  have hmem : (0 : Nat) ∈
      (runOps [PoolOp.get, PoolOp.release 0, PoolOp.addRef 0]).free_buffers := by
    decide
  have h1 := h.2.2.1 0 hmem
  have h2 : rcAt (runOps [PoolOp.get, PoolOp.release 0, PoolOp.addRef 0]) 0 =
      some 1 := by
    decide
  rw [h2] at h1
  simp at h1

/-- Claim C8 (amended): every sequence of GetBuffer, AddBufferReference and
ReleaseBuffer calls starting from the empty pool, in which
AddBufferReference is only applied to a buffer whose reference count is
nonzero at the moment of the call, preserves that
0 <= free_buffer_count_ <= all_buffer_count_ <= 32, that every buffer on the
free list has reference count zero, and that each created buffer's id equals
its index in all_buffers_ (so GetBuffer(id) returns the buffer whose
BufferPrivateData is id). -/
theorem pool_invariant_valid_runs (ops : List PoolOp)
    (hv : validOps emptyManager ops = true) : poolInvariant (runOps ops) := by
  have hempty : strongInv emptyManager := by
    refine ⟨by simp [emptyManager, kMaxFrames], by simp [emptyManager], ?_, ?_⟩
    · intro i hi
      simp [emptyManager] at hi
    · intro i b hb
      simp [emptyManager] at hb
  exact strongInv_implies_poolInvariant _ (validOps_strongInv ops emptyManager hempty hv)

theorem pool_invariant_valid_runs_witness :
    validOps emptyManager [PoolOp.get, PoolOp.release 0, PoolOp.get] = true ∧
    poolInvariant (runOps [PoolOp.get, PoolOp.release 0, PoolOp.get]) :=
  ⟨by decide, pool_invariant_valid_runs _ (by decide)⟩

/-- Counterexample to claim C7 as stated: it is not the case that all four
operations named by the claim hold the mutex around their accesses, because
GetBuffer(int) reads all_buffers_[id] with no lock_guard in scope. -/
theorem lock_guard_counterexample :
    ¬ (mutexGuarded getBufferBySizeEvents = true ∧
       mutexGuarded getBufferByIdEvents = true ∧
       mutexGuarded addBufferReferenceEvents = true ∧
       mutexGuarded releaseBufferEvents = true) := by
  decide

/-- Claim C7 (amended): GetBuffer by size, AddBufferReference and
ReleaseBuffer each hold the manager's single mutex for the duration of
their accesses to the pool arrays and counts, but GetBuffer by id reads
all_buffers_ without acquiring the mutex. -/
theorem lock_guard_amended :
    mutexGuarded getBufferBySizeEvents = true ∧
    mutexGuarded addBufferReferenceEvents = true ∧
    mutexGuarded releaseBufferEvents = true ∧
    mutexGuarded getBufferByIdEvents = false := by
  decide

/-- Claim C9: gav1ReleaseFrame writes -1 into the output buffer's
decoderPrivate field before releasing, returns without touching the pool
when the field read is negative, and therefore a second call on the same
output buffer leaves the pool exactly as the first call left it and never
reports kJniStatusBufferAlreadyReleased. -/
theorem releaseFrame_idempotent (f : Int) (m : JniBufferManager) :
    (gav1ReleaseFrame f m).decoderPrivate = -1 ∧
    (f < 0 → gav1ReleaseFrame f m =
      { decoderPrivate := -1, manager := m, statusWritten := none }) ∧
    (gav1ReleaseFrame (gav1ReleaseFrame f m).decoderPrivate
        (gav1ReleaseFrame f m).manager).manager = (gav1ReleaseFrame f m).manager ∧
    (gav1ReleaseFrame (gav1ReleaseFrame f m).decoderPrivate
        (gav1ReleaseFrame f m).manager).statusWritten = none ∧
    (gav1ReleaseFrame (gav1ReleaseFrame f m).decoderPrivate
        (gav1ReleaseFrame f m).manager).statusWritten ≠
      some JniStatusCode.kJniStatusBufferAlreadyReleased := by
  have hd : (gav1ReleaseFrame f m).decoderPrivate = -1 := by
    unfold gav1ReleaseFrame
    split <;> rfl
  have hneg : ∀ m' : JniBufferManager, gav1ReleaseFrame (-1) m' =
      { decoderPrivate := -1, manager := m', statusWritten := none } := by
    intro m'
    unfold gav1ReleaseFrame
    rw [if_pos (by omega : (-1 : Int) < 0)]
  refine ⟨hd, ?_, ?_, ?_, ?_⟩
  · intro hf
    unfold gav1ReleaseFrame
    rw [if_pos hf]
  · rw [hd, hneg]
  · rw [hd, hneg]
  · rw [hd, hneg]
    simp

theorem releaseFrame_idempotent_witness :
    (-5 : Int) < 0 ∧
    gav1ReleaseFrame (-5) emptyManager =
      { decoderPrivate := -1, manager := emptyManager, statusWritten := none } :=
  ⟨by omega, (releaseFrame_idempotent (-5) emptyManager).2.1 (by omega)⟩

theorem convertRow_carry_le (c : Nat) (row : List Nat) (hc : c ≤ 3) :
    (convertRow c row).2 ≤ 3 := by
  induction row generalizing c with
  | nil => simpa [convertRow] using hc
  | cons s ss ih =>
    simpa [convertRow, convertPixel] using ih ((c + s) % 4) (by omega)

/-- Counterexample to claim C10 as stated: in the row with samples 1 and
1023, the carry entering the second pixel is 1, the byte stored by
data[j] = sample >> 2 is 0 (the jbyte assignment truncates the value 256),
so the stored byte is not (c + sample) >> 2 and
4 * output + new_carry differs from c + sample at that pixel. -/
theorem dither_carry_counterexample :
    (convertRow 0 [1]).2 = 1 ∧
    convertPixel 1 1023 = (0, 0) ∧
    (convertPixel 1 1023).1 ≠ (1 + 1023) / 4 ∧
    4 * (convertPixel 1 1023).1 + (convertPixel 1 1023).2 ≠ 1 + 1023 := by
  decide

/-- Claim C10 (amended): in Convert10BitFrameTo8BitDataBuffer, for every
pixel whose entering carry c satisfies c <= 3 and whose sample s satisfies
c + s < 1024 (in particular every pixel of a 10-bit plane with samples at
most 1020), the stored output byte is (c + s) >> 2, the new carry is
(c + s) & 3, hence 4 * output + new_carry = c + s; and along any row the
carry always stays in the range 0 to 3. -/
theorem dither_carry_amended (c s : Nat) (hc : c ≤ 3) (hcs : c + s < 1024) :
    (convertPixel c s).1 = (c + s) / 4 ∧
    (convertPixel c s).2 = (c + s) % 4 ∧
    4 * (convertPixel c s).1 + (convertPixel c s).2 = c + s ∧
    (∀ (c₀ : Nat) (row : List Nat), c₀ ≤ 3 → (convertRow c₀ row).2 ≤ 3) := by
  have hlt : (c + s) / 4 < 256 := by omega
  refine ⟨?_, rfl, ?_, fun c₀ row hc₀ => convertRow_carry_le c₀ row hc₀⟩
  · simp [convertPixel, Nat.mod_eq_of_lt hlt]
  · simp only [convertPixel, Nat.mod_eq_of_lt hlt]
    omega

theorem dither_carry_amended_witness :
    (1 : Nat) ≤ 3 ∧ 1 + 2 < 1024 ∧
    4 * (convertPixel 1 2).1 + (convertPixel 1 2).2 = 1 + 2 :=
  ⟨by decide, by decide, (dither_carry_amended 1 2 (by decide) (by decide)).2.2.1⟩

set_option maxRecDepth 8192 in
/-- Claim C1 (code bug): for the concrete 16x16 8-bit picture failingPic,
CopyFrameToDataBuffer writes only sizeof(void*) = 8 bytes per plane (24
bytes in total) because length is computed as
sizeof decoder_buffer->data[plane_index], the size of the pointer, instead
of the plane's pixel size; the full-plane copy the spec describes would
write 384 bytes, and already byte 8 of the output holds a plane-1 byte
where the spec requires a plane-0 byte. -/
theorem copyFrameToDataBuffer_truncates :
    (CopyFrameToDataBuffer failingPic).length = 24 ∧
    (specCopyFrameToDataBuffer failingPic).length = 384 ∧
    (CopyFrameToDataBuffer failingPic)[8]? = some 1 ∧
    (specCopyFrameToDataBuffer failingPic)[8]? = some 0 ∧
    CopyFrameToDataBuffer failingPic ≠ specCopyFrameToDataBuffer failingPic := by
  decide

theorem row_col_offset_lt (r c h d : Nat) (hr : r < h) (hc : c < d) :
    r * d + c < h * d := by
  calc r * d + c < r * d + d := by omega
    _ = (r + 1) * d := (Nat.succ_mul r d).symm
    _ ≤ h * d := Nat.mul_le_mul_right d (by omega)

theorem copyPlane_below (source : Nat → Nat) (ss ds w : Nat) :
    ∀ (h srcOff dstOff : Nat) (mem : Nat → Nat) (a : Nat), a < dstOff →
      CopyPlane source ss ds w srcOff dstOff h mem a = mem a := by
  intro h
  induction h with
  | zero =>
    intro srcOff dstOff mem a ha
    simp only [CopyPlane]
  | succ h ih =>
    intro srcOff dstOff mem a ha
    simp only [CopyPlane]
    rw [ih (srcOff + ss) (dstOff + ds) _ a (by omega)]
    simp only [writeRow]
    rw [if_neg (by omega)]

theorem copyPlane_read (source : Nat → Nat) (ss ds w : Nat) (hw : w ≤ ds) :
    ∀ (h r srcOff dstOff c : Nat) (mem : Nat → Nat), r < h → c < w →
      CopyPlane source ss ds w srcOff dstOff h mem (dstOff + r * ds + c) =
        source (srcOff + r * ss + c) := by
  intro h
  induction h with
  | zero =>
    intro r srcOff dstOff c mem hr hc
    omega
  | succ h ih =>
    intro r srcOff dstOff c mem hr hc
    cases r with
    | zero =>
      simp only [CopyPlane, Nat.zero_mul, Nat.add_zero]
      rw [copyPlane_below source ss ds w h (srcOff + ss) (dstOff + ds)
        (writeRow source srcOff dstOff w mem) (dstOff + c) (by omega)]
      simp only [writeRow]
      rw [if_pos ⟨Nat.le_add_right dstOff c, by omega⟩]
      congr 1
      omega
    | succ r =>
      simp only [CopyPlane]
      have e1 : dstOff + (r + 1) * ds + c = (dstOff + ds) + r * ds + c := by
        rw [Nat.succ_mul]
        omega
      rw [e1, ih r (srcOff + ss) (dstOff + ds) c
        (writeRow source srcOff dstOff w mem) (by omega) hc]
      congr 1
      rw [Nat.succ_mul]
      omega

theorem gav1RenderFrame_eq (jb : JniFrameBuffer) (wstride wheight : Nat)
    (mem : Nat → Nat) :
    gav1RenderFrame jb wstride wheight mem =
      CopyPlane (jb.plane 1) (jb.stride 1) (AlignTo16 (wstride / 2))
        (jb.displayed_width 1) 0
        (wstride * wheight +
          min ((wheight + 1) / 2) (jb.displayed_height 2) *
            AlignTo16 (wstride / 2))
        (min ((wheight + 1) / 2) (jb.displayed_height 1))
        (CopyPlane (jb.plane 2) (jb.stride 2) (AlignTo16 (wstride / 2))
          (jb.displayed_width 2) 0 (wstride * wheight)
          (min ((wheight + 1) / 2) (jb.displayed_height 2))
          (CopyPlane (jb.plane 0) (jb.stride 0) wstride (jb.displayed_width 0)
            0 0 (jb.displayed_height 0) mem)) := rfl

/-- Claim C6: gav1RenderFrame lays the frame out as YV12 in the locked
window buffer: the Y plane at offset 0 with the window's stride, the V plane
at offset stride * height with chroma stride AlignTo16(stride / 2) and
copied height min((height + 1) / 2, DisplayedHeight(V)), and the U plane
immediately after the V plane with copied height
min((height + 1) / 2, DisplayedHeight(U)).  The hypotheses say the copied
rows fit inside their destination rows (displayed widths at most the
destination strides, luma height at most the window height), which is what
the window geometry set from the Y plane dimensions provides. -/
theorem renderFrame_yv12_layout (jb : JniFrameBuffer) (wstride wheight : Nat)
    (mem : Nat → Nat)
    (hYw : jb.displayed_width 0 ≤ wstride)
    (hYh : jb.displayed_height 0 ≤ wheight)
    (hUw : jb.displayed_width 1 ≤ AlignTo16 (wstride / 2))
    (hVw : jb.displayed_width 2 ≤ AlignTo16 (wstride / 2)) :
    (∀ r c, r < jb.displayed_height 0 → c < jb.displayed_width 0 →
      gav1RenderFrame jb wstride wheight mem (r * wstride + c) =
        jb.plane 0 (r * jb.stride 0 + c)) ∧
    (∀ r c, r < min ((wheight + 1) / 2) (jb.displayed_height 2) →
        c < jb.displayed_width 2 →
      gav1RenderFrame jb wstride wheight mem
          (wstride * wheight + r * AlignTo16 (wstride / 2) + c) =
        jb.plane 2 (r * jb.stride 2 + c)) ∧
    (∀ r c, r < min ((wheight + 1) / 2) (jb.displayed_height 1) →
        c < jb.displayed_width 1 →
      gav1RenderFrame jb wstride wheight mem
          (wstride * wheight +
            min ((wheight + 1) / 2) (jb.displayed_height 2) *
              AlignTo16 (wstride / 2) +
            r * AlignTo16 (wstride / 2) + c) =
        jb.plane 1 (r * jb.stride 1 + c)) := by
  refine ⟨?_, ?_, ?_⟩
  · intro r c hr hc
    rw [gav1RenderFrame_eq]
    have ha : r * wstride + c < wstride * wheight := by
      rw [Nat.mul_comm wstride wheight]
      exact row_col_offset_lt r c wheight wstride (by omega) (by omega)
    rw [copyPlane_below (jb.plane 1) (jb.stride 1) (AlignTo16 (wstride / 2))
      (jb.displayed_width 1) _ _ _ _ _ (by omega)]
    rw [copyPlane_below (jb.plane 2) (jb.stride 2) (AlignTo16 (wstride / 2))
      (jb.displayed_width 2) _ _ _ _ _ (by omega)]
    have := copyPlane_read (jb.plane 0) (jb.stride 0) wstride
      (jb.displayed_width 0) hYw (jb.displayed_height 0) r 0 0 c mem hr hc
    simpa using this
  · intro r c hr hc
    rw [gav1RenderFrame_eq]
    have hb : r * AlignTo16 (wstride / 2) + c <
        min ((wheight + 1) / 2) (jb.displayed_height 2) *
          AlignTo16 (wstride / 2) :=
      row_col_offset_lt r c _ _ hr (by omega)
    rw [copyPlane_below (jb.plane 1) (jb.stride 1) (AlignTo16 (wstride / 2))
      (jb.displayed_width 1) _ _ _ _ _ (by omega)]
    have := copyPlane_read (jb.plane 2) (jb.stride 2) (AlignTo16 (wstride / 2))
      (jb.displayed_width 2) hVw (min ((wheight + 1) / 2) (jb.displayed_height 2))
      r 0 (wstride * wheight) c
      (CopyPlane (jb.plane 0) (jb.stride 0) wstride (jb.displayed_width 0)
        0 0 (jb.displayed_height 0) mem) hr hc
    simpa using this
  · intro r c hr hc
    rw [gav1RenderFrame_eq]
    have := copyPlane_read (jb.plane 1) (jb.stride 1) (AlignTo16 (wstride / 2))
      (jb.displayed_width 1) hUw (min ((wheight + 1) / 2) (jb.displayed_height 1))
      r 0
      (wstride * wheight +
        min ((wheight + 1) / 2) (jb.displayed_height 2) * AlignTo16 (wstride / 2))
      c
      (CopyPlane (jb.plane 2) (jb.stride 2) (AlignTo16 (wstride / 2))
        (jb.displayed_width 2) 0 (wstride * wheight)
        (min ((wheight + 1) / 2) (jb.displayed_height 2))
        (CopyPlane (jb.plane 0) (jb.stride 0) wstride (jb.displayed_width 0)
          0 0 (jb.displayed_height 0) mem)) hr hc
    simpa using this

theorem renderFrame_yv12_layout_witness :
    gav1RenderFrame renderBuffer 32 8 (fun _ => 0) (256 + 1 * 16 + 2) = 56 := by
  have h := (renderFrame_yv12_layout renderBuffer 32 8 (fun _ => 0)
    (by decide) (by decide) (by decide) (by decide)).2.1 1 2 (by decide) (by decide)
  simpa [renderBuffer, AlignTo16] using h
